import Mathlib

/-!
Verification development for the realtime voice-assistant session manager
(src/index.ts, src/tools.ts).  The TypeScript class RealtimeChat is embedded
shallowly: its mutable fields become the fields of the structure RCState,
each event handler becomes a pure function from state (and the inbound
event) to a new state together with the list of wire events it sends, and
the awaited axios calls become explicit HttpResult parameters carrying the
collaborator outcome.  Payloads are duck-typed (any) in the source, so
event and item fields are Options; JavaScript truthiness on strings is
modelled by the helper truthyS.  Durations are exact rationals; the source
conversion (bytes / 2 / 24000) * 1000 ms is kept verbatim.
-/

namespace VoiceAssistant

/-- JavaScript string rendering of a possibly-undefined value, as produced
by template literals and string concatenation with undefined. -/
def jsStr (o : Option String) : String := o.getD "undefined"

/-- JavaScript truthiness of a possibly-undefined string: undefined and the
empty string are falsy. -/
def truthyS : Option String → Bool
  | none => false
  | some s => s ≠ ""

/-- One positional content slot of a conversation item (duck-typed object in
the source; a fresh placeholder pushed by the while-loop in
handleResponseContentPartAdded is the empty object). -/
structure ContentPart where
  ptype : Option String := none
  text : Option String := none
  transcript : Option String := none
deriving Repr, DecidableEq

/-- The empty-object placeholder pushed to grow a content array. -/
def emptyPart : ContentPart := {}

/-- A conversation item as delivered by conversation.item.created. -/
structure Item where
  id : String
  itemType : Option String := none
  role : Option String := none
  content : Option (List ContentPart) := none
  name : Option String := none
  call_id : Option String := none
deriving Repr, DecidableEq

/-- An entry of this.conversationHistory. -/
structure HistoryMsg where
  role : Option String := none
  msgType : Option String := none
  function_name : Option String := none
  content : String := ""
  item_id : String := ""
deriving Repr, DecidableEq

/-- An entry of this.functionCalls, keyed by call_id. -/
structure FunctionCallSt where
  item_id : String
  function_name : Option String
  arguments : String
deriving Repr, DecidableEq

/-- Backing-tool descriptor returned by the tool-search collaborator
(fields beyond id and name are not consulted by the session manager). -/
structure BaseTool where
  id : String
  name : String := ""
deriving Repr, DecidableEq

/-- An OpenAI-style function definition.  The description and JSON-schema
parameters are opaque to the session manager and are omitted from the
model; ftype is the type field set by the spread that also drops the
baseTool payload. -/
structure FunctionDef where
  name : String
  ftype : Option String := none
deriving Repr, DecidableEq

/-- One ranked result from the tool-search collaborator. -/
structure ToolSearchApiResponse where
  function : FunctionDef
  baseTool : BaseTool
  path : Option String := none
  method : Option String := none
deriving Repr, DecidableEq

/-- The reserved refresh capability from src/tools.ts (description and empty
parameter schema omitted as above). -/
def updateToolListFunction : FunctionDef := { name := "update_tools_list", ftype := some "function" }

/-- A deferred resolution stored in this.pendingFunctionCalls.  The source
stores closures; the two closure shapes constructed by handleFunctionCall
are reified here. -/
inductive PendingAction where
  | updateTools (callId : Option String)
  | dynamicCall (functionName : Option String) (callId : Option String)
deriving Repr, DecidableEq

/-- Outcome of an awaited axios call: the parsed response data, or a thrown
error caught by the surrounding try/catch. -/
inductive HttpResult (α : Type) where
  | ok (data : α)
  | fail
deriving Repr, DecidableEq

/-- Outbound wire events written to the socket (input_audio_buffer.append
from the capture source and the initial session.update of setupSession are
outside the claims and outside this model). -/
inductive OutEvent where
  | sessionUpdate (eventId : String) (tools : List FunctionDef)
  | itemCreate (eventId : String) (call_id : Option String) (output : String)
  | itemTruncate (eventId : String) (item_id : String) (content_index : Nat) (audio_end_ms : ℤ)
  | responseCreate (eventId : String)
deriving Repr, DecidableEq

/-- A runtime TypeError thrown by a handler indexing into a missing payload
field (e.g. event.item absent, or Buffer.from of undefined). -/
inductive RtError where
  | typeError
deriving Repr, DecidableEq

/-- An inbound wire event; absent fields model the duck-typed payloads.
audioDeltaBytes is the byte length of the base64-decoded audio delta (the
base64 transport encoding is out of scope per the spec). -/
structure Event where
  type : String
  item : Option Item := none
  item_id : Option String := none
  content_index : Option Nat := none
  delta : Option String := none
  text : Option String := none
  transcript : Option String := none
  part : Option ContentPart := none
  call_id : Option String := none
  arguments : Option String := none
  audioDeltaBytes : Option Nat := none
deriving Repr, DecidableEq

/-- Terminal actions taken by handleInactivityTimeout. -/
inductive SessionAction where
  | closeConnection
  | exitProcess
deriving Repr, DecidableEq

/-- Insertion-ordered association list modelling a JS Map: lookup. -/
def assocFind {κ α : Type} [DecidableEq κ] : List (κ × α) → κ → Option α
  | [], _ => none
  | (k, v) :: rest, key => if k = key then some v else assocFind rest key

/-- Map.set: replace in place if the key exists, else append (JS Maps keep
insertion order and setting an existing key keeps its position). -/
def assocSet {κ α : Type} [DecidableEq κ] : List (κ × α) → κ → α → List (κ × α)
  | [], key, v => [(key, v)]
  | (k, w) :: rest, key, v => if k = key then (key, v) :: rest else (k, w) :: assocSet rest key v

/-- Map.delete. -/
def assocErase {κ α : Type} [DecidableEq κ] : List (κ × α) → κ → List (κ × α)
  | [], _ => []
  | (k, w) :: rest, key => if k = key then rest else (k, w) :: assocErase rest key

/-- In-place update of the element at an index (mutation of one array slot
in the source); out-of-range indices leave the list unchanged. -/
def modifyAt {α : Type} : List α → Nat → (α → α) → List α
  | [], _, _ => []
  | x :: rest, 0, f => f x :: rest
  | x :: rest, i + 1, f => x :: modifyAt rest i f

/-- Set.add on the truncated-item-id set. -/
def setAdd (l : List String) (x : String) : List String :=
  if l.contains x then l else l ++ [x]

/-- The mutable state of a RealtimeChat instance.  writtenBytes and
playedBytes are instrumentation counters (bytes written into the current
audioStream and bytes the sink has drained from it); they are reset exactly
where the corresponding duration counters are reset and appear in no
handler decision. -/
structure RCState where
  conversationHistory : List HistoryMsg
  inactivityTimer : Option Nat
  isPlayingAudio : Bool
  isAssistantResponding : Bool
  isUserSpeaking : Bool
  lastAssistantItemId : Option String
  assistantAudioContentIndex : Option Nat
  assistantAudioDurationMs : ℚ
  assistantAudioPlaybackDurationMs : ℚ
  eventCounter : Nat
  conversationItems : List (String × Item)
  truncatedAssistantItemIds : List String
  functionCalls : List (Option String × FunctionCallSt)
  audioDone : Bool
  responseInProgress : Bool
  responseQueue : List OutEvent
  audioStreamOpen : Bool
  speakerOpen : Bool
  dynamicTools : List (String × ToolSearchApiResponse)
  pendingFunctionCalls : List (Option String × PendingAction)
  lastLoggedIndex : Nat
  writtenBytes : Nat
  playedBytes : Nat
deriving Repr, DecidableEq

/-- State right after the constructor ran. -/
def initialState : RCState where
  conversationHistory := []
  inactivityTimer := none
  isPlayingAudio := false
  isAssistantResponding := false
  isUserSpeaking := false
  lastAssistantItemId := none
  assistantAudioContentIndex := none
  assistantAudioDurationMs := 0
  assistantAudioPlaybackDurationMs := 0
  eventCounter := 0
  conversationItems := []
  truncatedAssistantItemIds := []
  functionCalls := []
  audioDone := false
  responseInProgress := false
  responseQueue := []
  audioStreamOpen := false
  speakerOpen := false
  dynamicTools := []
  pendingFunctionCalls := []
  lastLoggedIndex := 0
  writtenBytes := 0
  playedBytes := 0

/-- The event_N identifier string produced for counter value n. -/
def eventIdStr (n : Nat) : String := "event_" ++ toString n

/-- generateEventId: returns the fresh id and bumps the counter. -/
def generateEventId (s : RCState) : String × RCState :=
  (eventIdStr s.eventCounter, { s with eventCounter := s.eventCounter + 1 })

/-- logNewMessage: the console output is not modelled; the observable effect
is the lastLoggedIndex update. -/
def logNewMessage (s : RCState) : RCState :=
  { s with lastLoggedIndex := s.conversationHistory.length }

/-- resetInactivityTimer: cancel any pending timer. -/
def resetInactivityTimer (s : RCState) : RCState :=
  { s with inactivityTimer := none }

/-- startInactivityTimer: guarded arming of the 5000 ms watchdog. -/
def startInactivityTimer (s : RCState) : RCState :=
  if s.isPlayingAudio || s.isAssistantResponding || s.isUserSpeaking then s
  else { (resetInactivityTimer s) with inactivityTimer := some 5000 }

/-- handleInactivityTimeout: closes the socket and exits the process. -/
def handleInactivityTimeout : List SessionAction :=
  [SessionAction.closeConnection, SessionAction.exitProcess]

/-- getLastNMessages: conversationHistory.slice(-n). -/
def getLastNMessages (s : RCState) (n : Nat) : List HistoryMsg :=
  s.conversationHistory.drop (s.conversationHistory.length - n)

/-- The flattened text of one content part, per extractContent: type-tagged
field, included only when truthy. -/
def partText (p : ContentPart) : String :=
  if p.ptype = some "text" ∧ truthyS p.text then jsStr p.text
  else if p.ptype = some "input_audio" ∧ truthyS p.transcript then jsStr p.transcript
  else if p.ptype = some "input_text" ∧ truthyS p.text then jsStr p.text
  else if p.ptype = some "audio" ∧ truthyS p.transcript then jsStr p.transcript
  else ""

/-- extractContent: concatenate the truthy fields across the parts in index
order; a missing content array yields the empty string. -/
def extractContent : Option (List ContentPart) → String
  | none => ""
  | some arr => arr.foldl (fun acc p => acc ++ partText p) ""

/-- sendResponseCreateEvent: send now if no response is in progress (marking
one in progress), else enqueue. -/
def sendResponseCreateEvent (s : RCState) (event : OutEvent) : RCState × List OutEvent :=
  if !s.responseInProgress then
    ({ s with responseInProgress := true }, [event])
  else
    ({ s with responseQueue := s.responseQueue ++ [event] }, [])

/-- updateFunctions: push the tool list to the engine via session.update. -/
def updateFunctions (s : RCState) (functionsList : List FunctionDef) : RCState × List OutEvent :=
  let (eid, s) := generateEventId s
  (s, [OutEvent.sessionUpdate eid functionsList])

/-- The JSON.stringify literal of the tools-updated result message. -/
def toolsUpdatedJson : String := "\x7b\"message\":\"ツールリストが更新されました。\"\x7d"

/-- The JSON.stringify literal of the unknown-function error payload. -/
def unknownFunctionJson (functionName : Option String) : String :=
  "\x7b\"error\":\"関数" ++ jsStr functionName ++ "が見つかりませんでした。\"\x7d"

/-- The loop over the tool-search results: skip results whose baseTool id is
falsy, record the name-to-tool mapping, and collect the pushed function
definitions (with the type tag set and the baseTool payload dropped). -/
def toolsLoop : List ToolSearchApiResponse → List (String × ToolSearchApiResponse) × List FunctionDef → List (String × ToolSearchApiResponse) × List FunctionDef
  | [], acc => acc
  | result :: rest, (m, fl) =>
    if result.baseTool.id = "" then toolsLoop rest (m, fl)
    else toolsLoop rest (assocSet m result.function.name result, fl ++ [{ result.function with ftype := some "function" }])

/-- handleUpdateToolsList.  searchResult is the awaited outcome of the
tool-search POST; on a thrown error the catch block only logs, leaving the
state unchanged and sending nothing. -/
def handleUpdateToolsList (s : RCState) (callId : Option String) (lastMessages : List HistoryMsg) (searchResult : HttpResult (List ToolSearchApiResponse)) : RCState × List OutEvent :=
  let _messages := String.intercalate "\n"
    (lastMessages.map (fun msg => if msg.role = some "user" ∨ msg.role = some "assistant" then msg.content else ""))
  match searchResult with
  | .fail => (s, [])
  | .ok results =>
    let (m, fl) := toolsLoop results ([], [])
    let s := { s with dynamicTools := m }
    let functionsList := fl ++ [updateToolListFunction]
    let (s, outs0) := updateFunctions s functionsList
    let resultMessage := toolsUpdatedJson
    let (eid1, s) := generateEventId s
    let out1 := OutEvent.itemCreate eid1 callId resultMessage
    let (eid2, s) := generateEventId s
    let s := { s with conversationHistory := s.conversationHistory ++
      [{ role := some "function", msgType := some "function_call_output",
         function_name := some "update_tools_list", content := resultMessage, item_id := eid2 }] }
    let s := logNewMessage s
    let s := { s with pendingFunctionCalls := assocErase s.pendingFunctionCalls callId }
    let (eid3, s) := generateEventId s
    let (s, outs2) := sendResponseCreateEvent s (OutEvent.responseCreate eid3)
    (s, outs0 ++ [out1] ++ outs2)

/-- handleDynamicFunctionCall.  execResult is the awaited outcome of the
tool-execute POST (its response data already serialized); on a thrown error
the catch block only logs.  The JSON.parse of the accumulated arguments
only feeds the collaborator request body, which the model does not observe;
its failure falls back to an empty object and the call proceeds either
way. -/
def handleDynamicFunctionCall (s : RCState) (functionName : Option String) (callId : Option String) (execResult : HttpResult String) : RCState × List OutEvent :=
  match assocFind s.functionCalls callId with
  | none => (s, [])
  | some functionCall =>
    let _arguments := functionCall.arguments
    match functionName.bind (assocFind s.dynamicTools) with
    | none =>
      let errorMessage := unknownFunctionJson functionName
      let (eid0, s) := generateEventId s
      let out0 := OutEvent.itemCreate eid0 callId errorMessage
      let (eid1, s) := generateEventId s
      let s := { s with conversationHistory := s.conversationHistory ++
        [{ role := some "function", msgType := some "function_call_output",
           function_name := functionName, content := errorMessage, item_id := eid1 }] }
      let s := logNewMessage s
      let s := { s with pendingFunctionCalls := assocErase s.pendingFunctionCalls callId }
      let (eid2, s) := generateEventId s
      let (s, outs2) := sendResponseCreateEvent s (OutEvent.responseCreate eid2)
      (s, [out0] ++ outs2)
    | some toolInfo =>
      let _path := toolInfo.path
      let _method := toolInfo.method
      match execResult with
      | .fail => (s, [])
      | .ok result =>
        let (eid0, s) := generateEventId s
        let out0 := OutEvent.itemCreate eid0 callId result
        let (eid1, s) := generateEventId s
        let s := { s with conversationHistory := s.conversationHistory ++
          [{ role := some "function", msgType := some "function_call_output",
             function_name := functionName, content := result, item_id := eid1 }] }
        let s := logNewMessage s
        let s := { s with pendingFunctionCalls := assocErase s.pendingFunctionCalls callId }
        let (eid2, s) := generateEventId s
        let (s, outs2) := sendResponseCreateEvent s (OutEvent.responseCreate eid2)
        (s, [out0] ++ outs2)

/-- handleFunctionCall: register the call, append the history entry, then
either resolve the tool-list refresh (immediately when the last-5 slice is
non-empty) or defer a pending action.  searchResult is threaded to the
immediate refresh path. -/
def handleFunctionCall (s : RCState) (item : Item) (searchResult : HttpResult (List ToolSearchApiResponse)) : RCState × List OutEvent :=
  let functionName := item.name
  let callId := item.call_id
  let fc : FunctionCallSt := { item_id := item.id, function_name := functionName, arguments := "" }
  let s := { s with functionCalls := assocSet s.functionCalls callId fc }
  let s := { s with conversationHistory := s.conversationHistory ++
    [{ role := some "assistant", msgType := some "function_call",
       function_name := functionName, content := "", item_id := item.id }] }
  let s := logNewMessage s
  if functionName = some "update_tools_list" then
    let lastMessages := getLastNMessages s 5
    if lastMessages.length > 0 then
      handleUpdateToolsList s callId lastMessages searchResult
    else
      ({ s with pendingFunctionCalls := assocSet s.pendingFunctionCalls callId (.updateTools callId) }, [])
  else
    ({ s with pendingFunctionCalls := assocSet s.pendingFunctionCalls callId (.dynamicCall functionName callId) }, [])

/-- The collaborator outcomes consumed while draining pending calls. -/
structure Oracles where
  toolSearch : HttpResult (List ToolSearchApiResponse)
  toolExecute : HttpResult String
deriving Repr

/-- Run one stored pending closure. -/
def runPendingAction (orc : Oracles) (s : RCState) : PendingAction → RCState × List OutEvent
  | .updateTools callId => handleUpdateToolsList s callId (getLastNMessages s 5) orc.toolSearch
  | .dynamicCall functionName callId => handleDynamicFunctionCall s functionName callId orc.toolExecute

/-- The forEach over pendingFunctionCalls: run each stored closure, then
delete its key (the closures themselves add no pending entries, so the
snapshot walk matches the live Map iteration). -/
def runPendingList (orc : Oracles) (s : RCState) : List (Option String × PendingAction) → RCState × List OutEvent
  | [] => (s, [])
  | (callId, act) :: rest =>
    let (s1, outs1) := runPendingAction orc s act
    let s2 := { s1 with pendingFunctionCalls := assocErase s1.pendingFunctionCalls callId }
    let (s3, outs2) := runPendingList orc s2 rest
    (s3, outs1 ++ outs2)

/-- handleSessionCreated: log only. -/
def handleSessionCreated (s : RCState) (_e : Event) : RCState × List OutEvent := (s, [])

/-- handleError: log only. -/
def handleError (s : RCState) (_e : Event) : RCState × List OutEvent := (s, [])

/-- Update the history entry of one item in conversationHistory by item id, or push a new
entry (the findIndex / push tail shared by the done and the transcription
handlers).  A missing event item id never matches an entry. -/
def historyUpsert (s : RCState) (itemId : Option String) (role : Option String) (content : String) : RCState :=
  match s.conversationHistory.findIdx? (fun msg => some msg.item_id = itemId) with
  | some index =>
    let s := { s with conversationHistory := modifyAt s.conversationHistory index (fun msg => { msg with content := content }) }
    logNewMessage s
  | none =>
    let s := { s with conversationHistory := s.conversationHistory ++
      [{ role := role, content := content, item_id := jsStr itemId }] }
    logNewMessage s

/-- handleConversationItemCreated.  A payload without an item throws when
its id is read.  An assistant message resets the per-turn playback and
truncation bookkeeping (the instrumentation byte counters reset with the
duration counters they shadow). -/
def handleConversationItemCreated (s : RCState) (e : Event) (searchResult : HttpResult (List ToolSearchApiResponse)) : Except RtError (RCState × List OutEvent) :=
  match e.item with
  | none => .error .typeError
  | some item =>
    let s := { s with conversationItems := assocSet s.conversationItems item.id item }
    if item.itemType = some "function_call" then
      .ok (handleFunctionCall s item searchResult)
    else if item.role = some "assistant" then
      let s := resetInactivityTimer s
      let s := { s with
        lastAssistantItemId := some item.id
        assistantAudioContentIndex := some 0
        assistantAudioDurationMs := 0
        assistantAudioPlaybackDurationMs := 0
        truncatedAssistantItemIds := []
        writtenBytes := 0
        playedBytes := 0 }
      let s := { s with conversationHistory := s.conversationHistory ++
        [{ role := item.role, content := "", item_id := item.id }] }
      .ok (logNewMessage s, [])
    else if item.role = some "user" then
      let s := resetInactivityTimer s
      let s := { s with conversationHistory := s.conversationHistory ++
        [{ role := item.role, content := "", item_id := item.id }] }
      .ok (logNewMessage s, [])
    else
      .ok (s, [])

/-- handleInputAudioTranscriptionCompleted: record the transcript on the
addressed slot when it is in range, refresh the flattened history entry,
and drain the pending function calls. -/
def handleInputAudioTranscriptionCompleted (orc : Oracles) (s : RCState) (e : Event) : RCState × List OutEvent :=
  let itemId := e.item_id
  match itemId.bind (assocFind s.conversationItems) with
  | none => (s, [])
  | some item =>
    let item :=
      match item.content, e.content_index with
      | some cs, some contentIndex =>
        if contentIndex < cs.length then
          { item with content := some (modifyAt cs contentIndex (fun p => { p with transcript := e.transcript })) }
        else item
      | _, _ => item
    let s := { s with conversationItems := assocSet s.conversationItems (jsStr itemId) item }
    let content := extractContent item.content
    let s := historyUpsert s itemId item.role content
    runPendingList orc s s.pendingFunctionCalls

/-- handleResponseCreated. -/
def handleResponseCreated (s : RCState) (_e : Event) : RCState × List OutEvent :=
  let s := { s with isAssistantResponding := true }
  let s := resetInactivityTimer s
  (({ s with audioDone := false, responseInProgress := true }), [])

/-- handleResponseDone: clear the flags and flush the next queued
response-create request, if any. -/
def handleResponseDone (s : RCState) (_e : Event) : RCState × List OutEvent :=
  let s := { s with isAssistantResponding := false, responseInProgress := false }
  match s.responseQueue with
  | nextResponseEvent :: rest =>
    sendResponseCreateEvent { s with responseQueue := rest } nextResponseEvent
  | [] => (s, [])

/-- Grow a content array with empty-object placeholders until the index is
in range (the while push loop). -/
def growContent (cs : List ContentPart) (contentIndex : Nat) : List ContentPart :=
  cs ++ List.replicate (contentIndex + 1 - cs.length) emptyPart

/-- handleResponseContentPartAdded: grow the slot sequence lazily, then
replace the addressed slot with the delivered part.  A payload missing the
index or the part performs a non-index property write in JavaScript, which
leaves the content array unchanged. -/
def handleResponseContentPartAdded (s : RCState) (e : Event) : RCState × List OutEvent :=
  match e.item_id with
  | none => (s, [])
  | some itemId =>
    match assocFind s.conversationItems itemId with
    | none => (s, [])
    | some item =>
      match e.content_index, e.part with
      | some contentIndex, some part =>
        let cs := item.content.getD []
        let cs := (growContent cs contentIndex).set contentIndex part
        ({ s with conversationItems := assocSet s.conversationItems itemId { item with content := some cs } }, [])
      | _, _ => (s, [])

/-- handleResponseTextDelta: append the delta to the text field of the slot when
the slot exists; an out-of-range or missing index fails the length guard
and the event is dropped. -/
def handleResponseTextDelta (s : RCState) (e : Event) : RCState × List OutEvent :=
  match e.item_id with
  | none => (s, [])
  | some itemId =>
    match assocFind s.conversationItems itemId with
    | none => (s, [])
    | some item =>
      match item.content, e.content_index with
      | some cs, some contentIndex =>
        if contentIndex < cs.length then
          let cs := modifyAt cs contentIndex (fun p => { p with text := some (p.text.getD "" ++ jsStr e.delta) })
          ({ s with conversationItems := assocSet s.conversationItems itemId { item with content := some cs } }, [])
        else (s, [])
      | _, _ => (s, [])

/-- handleResponseTextDone: overwrite the text field of the slot with the
authoritative full value and refresh the flattened history entry. -/
def handleResponseTextDone (s : RCState) (e : Event) : RCState × List OutEvent :=
  match e.item_id with
  | none => (s, [])
  | some itemId =>
    match assocFind s.conversationItems itemId with
    | none => (s, [])
    | some item =>
      match item.content, e.content_index with
      | some cs, some contentIndex =>
        if contentIndex < cs.length then
          let cs := modifyAt cs contentIndex (fun p => { p with text := e.text })
          let item := { item with content := some cs }
          let s := { s with conversationItems := assocSet s.conversationItems itemId item }
          let content := extractContent item.content
          (historyUpsert s (some itemId) item.role content, [])
        else (s, [])
      | _, _ => (s, [])

/-- handleResponseAudioTranscriptDelta: append the delta to the
transcript field when the slot exists. -/
def handleResponseAudioTranscriptDelta (s : RCState) (e : Event) : RCState × List OutEvent :=
  match e.item_id with
  | none => (s, [])
  | some itemId =>
    match assocFind s.conversationItems itemId with
    | none => (s, [])
    | some item =>
      match item.content, e.content_index with
      | some cs, some contentIndex =>
        if contentIndex < cs.length then
          let cs := modifyAt cs contentIndex (fun p => { p with transcript := some (p.transcript.getD "" ++ jsStr e.delta) })
          ({ s with conversationItems := assocSet s.conversationItems itemId { item with content := some cs } }, [])
        else (s, [])
      | _, _ => (s, [])

/-- handleResponseAudioTranscriptDone: overwrite the transcript field of the slot with
the authoritative full value and refresh the flattened history entry. -/
def handleResponseAudioTranscriptDone (s : RCState) (e : Event) : RCState × List OutEvent :=
  match e.item_id with
  | none => (s, [])
  | some itemId =>
    match assocFind s.conversationItems itemId with
    | none => (s, [])
    | some item =>
      match item.content, e.content_index with
      | some cs, some contentIndex =>
        if contentIndex < cs.length then
          let cs := modifyAt cs contentIndex (fun p => { p with transcript := e.transcript })
          let item := { item with content := some cs }
          let s := { s with conversationItems := assocSet s.conversationItems itemId item }
          let content := extractContent item.content
          (historyUpsert s (some itemId) item.role content, [])
        else (s, [])
      | _, _ => (s, [])

/-- Membership test against the truncated-item set; a missing id is never a
member. -/
def truncatedHas (s : RCState) : Option String → Bool
  | some itemId => s.truncatedAssistantItemIds.contains itemId
  | none => false

/-- The non-truncated body of handleResponseAudioDelta: open the playback
pipeline on the first delta of a turn, write the bytes into the stream, and
accrue the received duration via (bytes / 2 / 24000) * 1000 ms. -/
def audioDeltaBody (s : RCState) (deltaBytes : Nat) : RCState :=
  let s :=
    if !s.isPlayingAudio then
      { s with isPlayingAudio := true, audioStreamOpen := true, speakerOpen := true }
    else s
  let s :=
    if s.audioStreamOpen && s.speakerOpen then { s with writtenBytes := s.writtenBytes + deltaBytes }
    else s
  let deltaDurationMs : ℚ := ((deltaBytes : ℚ) / 2 / 24000) * 1000
  { s with assistantAudioDurationMs := s.assistantAudioDurationMs + deltaDurationMs }

/-- handleResponseAudioDelta: deltas for a truncated item are dropped before
the payload is decoded; a payload without a delta then throws in
Buffer.from. -/
def handleResponseAudioDelta (s : RCState) (e : Event) : Except RtError (RCState × List OutEvent) :=
  if truncatedHas s e.item_id then .ok (s, [])
  else
    match e.audioDeltaBytes with
    | none => .error .typeError
    | some deltaBytes => .ok (audioDeltaBody s deltaBytes, [])

/-- The data callback of the PassThrough stream: the sink drained a chunk;
accrue the played duration via (bytes / 2 / 24000) * 1000 ms. -/
def onAudioStreamData (s : RCState) (chunkBytes : Nat) : RCState :=
  let chunkDurationMs : ℚ := ((chunkBytes : ℚ) / 2 / 24000) * 1000
  { s with assistantAudioPlaybackDurationMs := s.assistantAudioPlaybackDurationMs + chunkDurationMs,
           playedBytes := s.playedBytes + chunkBytes }

/-- The close callback of the speaker: natural completion of playback. -/
def onSpeakerClose (s : RCState) : RCState :=
  startInactivityTimer { s with isPlayingAudio := false, speakerOpen := false, audioStreamOpen := false }

/-- handleResponseAudioDone: mark reception finished and half-close the
stream (already-buffered bytes keep draining; the stream object survives
until the close callback). -/
def handleResponseAudioDone (s : RCState) (_e : Event) : RCState × List OutEvent :=
  ({ s with audioDone := true }, [])

/-- stopAudioPlayback: immediate teardown of the playback pipeline. -/
def stopAudioPlayback (s : RCState) : RCState :=
  let s := { s with isPlayingAudio := false, audioDone := true }
  let s := { s with audioStreamOpen := false }
  let s := { s with speakerOpen := false }
  startInactivityTimer s

/-- truncateAssistantSpeech: emit conversation.item.truncate carrying
Math.round of the played duration, and record the item as truncated. -/
def truncateAssistantSpeech (s : RCState) (itemId : String) (contentIndex : Nat) : RCState × List OutEvent :=
  let audioEndMs : ℤ := round s.assistantAudioPlaybackDurationMs
  let (eid, s) := generateEventId s
  let out := OutEvent.itemTruncate eid itemId contentIndex audioEndMs
  ({ s with truncatedAssistantItemIds := setAdd s.truncatedAssistantItemIds itemId }, [out])

/-- handleInputAudioBufferSpeechStarted: barge-in.  The truthiness guard on
the last assistant item id requires a non-empty string; the non-null
assertion on the content index is modelled by its default. -/
def handleInputAudioBufferSpeechStarted (s : RCState) (_e : Event) : RCState × List OutEvent :=
  let s := { s with isUserSpeaking := true }
  if s.isPlayingAudio ∧ truthyS s.lastAssistantItemId then
    let (s, outs) := truncateAssistantSpeech s (jsStr s.lastAssistantItemId) (s.assistantAudioContentIndex.getD 0)
    let s := stopAudioPlayback s
    (resetInactivityTimer s, outs)
  else
    (resetInactivityTimer s, [])

/-- handleInputAudioBufferSpeechStopped. -/
def handleInputAudioBufferSpeechStopped (s : RCState) (_e : Event) : RCState × List OutEvent :=
  let s := { s with isUserSpeaking := false }
  (startInactivityTimer s, [])

/-- handleConversationItemTruncated: record the engine-confirmed truncation
(an id-less payload would add undefined to the set, which no string id can
match; the set is left unchanged). -/
def handleConversationItemTruncated (s : RCState) (e : Event) : RCState × List OutEvent :=
  match e.item_id with
  | none => (s, [])
  | some itemId => ({ s with truncatedAssistantItemIds := setAdd s.truncatedAssistantItemIds itemId }, [])

/-- handleResponseFunctionCallArgumentsDelta: append to the accumulating
arguments string of the addressed call. -/
def handleResponseFunctionCallArgumentsDelta (s : RCState) (e : Event) : RCState × List OutEvent :=
  match assocFind s.functionCalls e.call_id with
  | none => (s, [])
  | some functionCall =>
    let functionCall := { functionCall with arguments := functionCall.arguments ++ jsStr e.delta }
    ({ s with functionCalls := assocSet s.functionCalls e.call_id functionCall }, [])

/-- handleResponseFunctionCallArgumentsDone: install the authoritative
arguments string, and for a non-refresh call resolve it now and clean the
call up. -/
def handleResponseFunctionCallArgumentsDone (orc : Oracles) (s : RCState) (e : Event) : RCState × List OutEvent :=
  match assocFind s.functionCalls e.call_id with
  | none => (s, [])
  | some functionCall =>
    let functionCall := { functionCall with arguments := jsStr e.arguments }
    let s := { s with functionCalls := assocSet s.functionCalls e.call_id functionCall }
    if functionCall.function_name ≠ some "update_tools_list" then
      let (s, outs) := handleDynamicFunctionCall s functionCall.function_name e.call_id orc.toolExecute
      ({ s with functionCalls := assocErase s.functionCalls e.call_id }, outs)
    else
      (s, [])

/-- The event-type tags of the dispatch table in handleEvent. -/
def handlerKeys : List String :=
  ["session.created", "conversation.item.created",
   "conversation.item.input_audio_transcription.completed",
   "response.created", "response.done", "response.content_part.added",
   "response.text.delta", "response.text.done",
   "response.audio_transcript.delta", "response.audio_transcript.done",
   "response.audio.delta", "response.audio.done",
   "input_audio_buffer.speech_started", "input_audio_buffer.speech_stopped",
   "conversation.item.truncated", "response.function_call_arguments.delta",
   "response.function_call_arguments.done", "error"]

/-- handleEvent: the string-keyed dispatch.  An event whose type matches no
key falls through to the comment-only else branch.  The message callback
installs no catch around the dispatch, so a handler error propagates. -/
def handleEvent (orc : Oracles) (s : RCState) (e : Event) : Except RtError (RCState × List OutEvent) :=
  if e.type = "session.created" then .ok (handleSessionCreated s e)
  else if e.type = "conversation.item.created" then handleConversationItemCreated s e orc.toolSearch
  else if e.type = "conversation.item.input_audio_transcription.completed" then .ok (handleInputAudioTranscriptionCompleted orc s e)
  else if e.type = "response.created" then .ok (handleResponseCreated s e)
  else if e.type = "response.done" then .ok (handleResponseDone s e)
  else if e.type = "response.content_part.added" then .ok (handleResponseContentPartAdded s e)
  else if e.type = "response.text.delta" then .ok (handleResponseTextDelta s e)
  else if e.type = "response.text.done" then .ok (handleResponseTextDone s e)
  else if e.type = "response.audio_transcript.delta" then .ok (handleResponseAudioTranscriptDelta s e)
  else if e.type = "response.audio_transcript.done" then .ok (handleResponseAudioTranscriptDone s e)
  else if e.type = "response.audio.delta" then handleResponseAudioDelta s e
  else if e.type = "response.audio.done" then .ok (handleResponseAudioDone s e)
  else if e.type = "input_audio_buffer.speech_started" then .ok (handleInputAudioBufferSpeechStarted s e)
  else if e.type = "input_audio_buffer.speech_stopped" then .ok (handleInputAudioBufferSpeechStopped s e)
  else if e.type = "conversation.item.truncated" then .ok (handleConversationItemTruncated s e)
  else if e.type = "response.function_call_arguments.delta" then .ok (handleResponseFunctionCallArgumentsDelta s e)
  else if e.type = "response.function_call_arguments.done" then .ok (handleResponseFunctionCallArgumentsDone orc s e)
  else if e.type = "error" then .ok (handleError s e)
  else .ok (s, [])

/-- A response.text.delta event. -/
def mkTextDeltaEvent (itemId : String) (contentIndex : Nat) (d : String) : Event :=
  { type := "response.text.delta", item_id := some itemId, content_index := some contentIndex, delta := some d }

/-- A response.text.done event. -/
def mkTextDoneEvent (itemId : String) (contentIndex : Nat) (v : String) : Event :=
  { type := "response.text.done", item_id := some itemId, content_index := some contentIndex, text := some v }

/-- A response.audio_transcript.delta event. -/
def mkTranscriptDeltaEvent (itemId : String) (contentIndex : Nat) (d : String) : Event :=
  { type := "response.audio_transcript.delta", item_id := some itemId, content_index := some contentIndex, delta := some d }

/-- A response.audio_transcript.done event. -/
def mkTranscriptDoneEvent (itemId : String) (contentIndex : Nat) (v : String) : Event :=
  { type := "response.audio_transcript.done", item_id := some itemId, content_index := some contentIndex, transcript := some v }

/-- A response.content_part.added event. -/
def mkPartAddedEvent (itemId : String) (contentIndex : Nat) (part : ContentPart) : Event :=
  { type := "response.content_part.added", item_id := some itemId, content_index := some contentIndex, part := some part }

/-- A response.audio.delta event carrying a decoded payload of the given
byte length. -/
def mkAudioDeltaEvent (itemId : String) (bytes : Nat) : Event :=
  { type := "response.audio.delta", item_id := some itemId, audioDeltaBytes := some bytes }

/-- A placeholder event for handlers that ignore their payload. -/
def dummyEvent : Event := { type := "" }

/-- Fold a sequence of text deltas for one (item, index) target through the
delta handler, in arrival order. -/
def runTextDeltas (itemId : String) (contentIndex : Nat) : RCState → List String → RCState
  | s, [] => s
  | s, d :: ds => runTextDeltas itemId contentIndex (handleResponseTextDelta s (mkTextDeltaEvent itemId contentIndex d)).1 ds

/-- Fold a sequence of audio-transcript deltas through the delta handler. -/
def runTranscriptDeltas (itemId : String) (contentIndex : Nat) : RCState → List String → RCState
  | s, [] => s
  | s, d :: ds => runTranscriptDeltas itemId contentIndex (handleResponseAudioTranscriptDelta s (mkTranscriptDeltaEvent itemId contentIndex d)).1 ds

/-- The text field of the addressed content slot, with the JS default of the
empty accumulation. -/
def slotTextD (s : RCState) (itemId : String) (contentIndex : Nat) : String :=
  ((((assocFind s.conversationItems itemId).bind Item.content).getD []).getD contentIndex emptyPart).text.getD ""

/-- The transcript field of the addressed content slot. -/
def slotTransD (s : RCState) (itemId : String) (contentIndex : Nat) : String :=
  ((((assocFind s.conversationItems itemId).bind Item.content).getD []).getD contentIndex emptyPart).transcript.getD ""

/-- The content array of an item in the store. -/
def itemContent (s : RCState) (itemId : String) : Option (List ContentPart) :=
  (assocFind s.conversationItems itemId).bind Item.content

/-- An action of the response scheduler: an outbound response-create request
(sendResponseCreateEvent) or an inbound response-done signal. -/
inductive SchedAct where
  | req (ev : OutEvent)
  | done
deriving Repr, DecidableEq

/-- One scheduler action against the live handlers. -/
def schedStep (s : RCState) : SchedAct → RCState × List OutEvent
  | .req ev => sendResponseCreateEvent s ev
  | .done => handleResponseDone s dummyEvent

/-- Run an interleaving of scheduler actions, collecting everything sent on
the wire. -/
def schedRun (s : RCState) : List SchedAct → RCState × List OutEvent
  | [] => (s, [])
  | a :: rest =>
    let (s1, outs1) := schedStep s a
    let (s2, outs2) := schedRun s1 rest
    (s2, outs1 ++ outs2)

/-- The requested events of an action list, in arrival order. -/
def reqsOf : List SchedAct → List OutEvent
  | [] => []
  | .req ev :: rest => ev :: reqsOf rest
  | .done :: rest => reqsOf rest

/-- The number of response-done signals in an action list. -/
def donesCount : List SchedAct → Nat
  | [] => 0
  | .req _ :: rest => donesCount rest
  | .done :: rest => donesCount rest + 1

/-- An event of the inbound audio pipeline during one assistant turn: a wire
audio delta, or the sink draining a chunk of previously written bytes. -/
inductive AudioEv where
  | delta (itemId : String) (bytes : Nat)
  | drain (bytes : Nat)
deriving Repr, DecidableEq

/-- One audio-pipeline event against the live handlers (the delta goes
through handleResponseAudioDelta, which cannot throw on a well-formed
payload). -/
def audioStep (s : RCState) : AudioEv → RCState
  | .delta itemId bytes => ((handleResponseAudioDelta s (mkAudioDeltaEvent itemId bytes)).toOption.getD (s, [])).1
  | .drain bytes => onAudioStreamData s bytes

/-- Run a sequence of audio-pipeline events. -/
def audioRun : RCState → List AudioEv → RCState
  | s, [] => s
  | s, ev :: rest => audioRun (audioStep s ev) rest

/-- Validity of an audio trace: the sink can only drain bytes that were
written into the stream and not drained yet. -/
def audioValid : RCState → List AudioEv → Bool
  | _, [] => true
  | s, ev :: rest =>
    (match ev with
     | .drain bytes => decide (s.playedBytes + bytes ≤ s.writtenBytes)
     | .delta _ _ => true) && audioValid (audioStep s ev) rest

/-- Recognizer for function-call-output item-create wire events. -/
def isCallOutput : OutEvent → Bool
  | .itemCreate _ _ _ => true
  | _ => false

/-- Count of function-call-output wire events in an output trace. -/
def countCallOutputs (outs : List OutEvent) : Nat := (outs.filter isCallOutput).length

/-- Recognizer for response.create wire events. -/
def isResponseCreate : OutEvent → Bool
  | .responseCreate _ => true
  | _ => false

/-- Count of response-create requests issued in an output trace. -/
def countResponseCreates (outs : List OutEvent) : Nat := (outs.filter isResponseCreate).length

/-- Extract the state of a non-throwing handler run. -/
def okState (r : Except RtError (RCState × List OutEvent)) : RCState :=
  (r.toOption.getD (initialState, [])).1

/-- Concatenation of a list of strings in order. -/
def strConcat : List String → String
  | [] => ""
  | d :: rest => d ++ strConcat rest

/-- Default collaborator outcomes for concrete runs. -/
def defaultOracles : Oracles := { toolSearch := .ok [], toolExecute := .ok "" }

/-- A state with the user-speaking flag up, for exercising the watchdog
guard. -/
def busyState : RCState := { initialState with isUserSpeaking := true }

/-- The function-call item of Scenario C: the refresh capability invoked as
the very first conversation event. -/
def scenCItem : Item :=
  { id := "item_1", itemType := some "function_call", name := some "update_tools_list", call_id := some "call_1" }

/-- A session state holding one open function call for the registered
dynamic function f, ready for resolution. -/
def dynCallState : RCState := { initialState with
  functionCalls := [(some "call_9", { item_id := "i9", function_name := some "f", arguments := "" })],
  dynamicTools := [("f", { function := { name := "f" }, baseTool := { id := "t1" } })] }

/-- A store holding one assistant item whose content array is still empty. -/
def emptyContentState : RCState := { initialState with
  conversationItems := [("i1", { id := "i1", itemType := some "message", role := some "assistant", content := some [] })] }

/-- A store holding one item with a single fresh text slot, the setting of
the accumulation scenarios. -/
def freshSlotState : RCState := { initialState with
  conversationItems := [("i1", { id := "i1", itemType := some "message", role := some "assistant", content := some [{ ptype := some "text" }] })] }

/-- Scenario B, step 0: assistant item a1 created, resetting the per-turn
playback bookkeeping. -/
def scenB0 : RCState :=
  okState (handleConversationItemCreated initialState
    { type := "conversation.item.created", item := some { id := "a1", itemType := some "message", role := some "assistant", content := some [] } }
    (.ok []))

/-- Scenario B, step 1: 50 bytes of audio delta received. -/
def scenB1 : RCState := okState (handleResponseAudioDelta scenB0 (mkAudioDeltaEvent "a1" 50))

/-- Scenario B, step 2: the sink drains 30 bytes. -/
def scenB2 : RCState := onAudioStreamData scenB1 30

section ListLemmas

theorem assocFind_assocSet_self {κ α : Type} [DecidableEq κ] (m : List (κ × α)) (k : κ) (v : α) :
    assocFind (assocSet m k v) k = some v := by
  induction m with
  | nil => simp [assocSet, assocFind]
  | cons hd tl ih =>
    obtain ⟨k0, v0⟩ := hd
    by_cases h : k0 = k
    · simp [assocSet, h, assocFind]
    · simp [assocSet, h, assocFind, ih]

theorem modifyAt_length {α : Type} (l : List α) (i : Nat) (f : α → α) :
    (modifyAt l i f).length = l.length := by
  induction l generalizing i with
  | nil => rfl
  | cons x rest ih =>
    cases i with
    | zero => simp [modifyAt]
    | succ j => simp [modifyAt, ih]

theorem modifyAt_getD_self {α : Type} (l : List α) (i : Nat) (f : α → α) (d : α)
    (h : i < l.length) : (modifyAt l i f).getD i d = f (l.getD i d) := by
  induction l generalizing i with
  | nil => simp at h
  | cons x rest ih =>
    cases i with
    | zero => simp [modifyAt]
    | succ j =>
      simp only [modifyAt, List.getD_cons_succ]
      exact ih j (by simpa using h)

theorem getD_set_self {α : Type} (l : List α) (i : Nat) (a : α) (d : α)
    (h : i < l.length) : (l.set i a).getD i d = a := by
  induction l generalizing i with
  | nil => simp at h
  | cons x rest ih =>
    cases i with
    | zero => simp
    | succ j =>
      simp only [List.set_cons_succ, List.getD_cons_succ]
      exact ih j (by simpa using h)

theorem getD_set_ne {α : Type} (l : List α) (i j : Nat) (a : α) (d : α)
    (h : j ≠ i) : (l.set i a).getD j d = l.getD j d := by
  induction l generalizing i j with
  | nil => simp
  | cons x rest ih =>
    cases i with
    | zero =>
      cases j with
      | zero => exact absurd rfl h
      | succ j0 => simp
    | succ i0 =>
      cases j with
      | zero => simp
      | succ j0 =>
        simp only [List.set_cons_succ, List.getD_cons_succ]
        exact ih i0 j0 (fun hc => h (by rw [hc]))

theorem growContent_length (cs : List ContentPart) (idx : Nat) :
    (growContent cs idx).length = max cs.length (idx + 1) := by
  unfold growContent
  rw [List.length_append, List.length_replicate]
  omega

theorem growContent_getD_tail (cs : List ContentPart) (idx j : Nat) (hj : cs.length ≤ j) :
    (growContent cs idx).getD j emptyPart = emptyPart := by
  unfold growContent
  rcases Nat.lt_or_ge j (cs.length + (idx + 1 - cs.length)) with hlt | hge
  · rw [List.getD_eq_getElem?_getD, List.getElem?_append_right hj]
    rw [List.getElem?_replicate]
    have : j - cs.length < idx + 1 - cs.length := by omega
    simp [this]
  · rw [List.getD_eq_getElem?_getD, List.getElem?_eq_none]
    · rfl
    · rw [List.length_append, List.length_replicate]; omega

end ListLemmas

section SlotLemmas

/-- The slot at the addressed index exists. -/
def slotReady (s : RCState) (itemId : String) (idx : Nat) : Prop :=
  ∃ item cs, assocFind s.conversationItems itemId = some item
    ∧ item.content = some cs ∧ idx < cs.length

theorem historyUpsert_conversationItems (s : RCState) (itemId : Option String)
    (role : Option String) (content : String) :
    (historyUpsert s itemId role content).conversationItems = s.conversationItems := by
  unfold historyUpsert logNewMessage
  split <;> rfl

theorem textDelta_state (s : RCState) (itemId : String) (idx : Nat) (d : String)
    (item : Item) (cs : List ContentPart)
    (hf : assocFind s.conversationItems itemId = some item)
    (hc : item.content = some cs) (hlt : idx < cs.length) :
    (handleResponseTextDelta s (mkTextDeltaEvent itemId idx d)).1 =
      { s with conversationItems := (assocSet s.conversationItems itemId
          { item with content := some (modifyAt cs idx
              (fun p => { p with text := some (p.text.getD "" ++ d) })) }) } := by
  unfold handleResponseTextDelta mkTextDeltaEvent
  simp [hf, hc, hlt, jsStr]

theorem transDelta_state (s : RCState) (itemId : String) (idx : Nat) (d : String)
    (item : Item) (cs : List ContentPart)
    (hf : assocFind s.conversationItems itemId = some item)
    (hc : item.content = some cs) (hlt : idx < cs.length) :
    (handleResponseAudioTranscriptDelta s (mkTranscriptDeltaEvent itemId idx d)).1 =
      { s with conversationItems := (assocSet s.conversationItems itemId
          { item with content := some (modifyAt cs idx
              (fun p => { p with transcript := some (p.transcript.getD "" ++ d) })) }) } := by
  unfold handleResponseAudioTranscriptDelta mkTranscriptDeltaEvent
  simp [hf, hc, hlt, jsStr]

theorem slotTextD_of_find (s : RCState) (itemId : String) (idx : Nat)
    (item : Item) (cs : List ContentPart)
    (hf : assocFind s.conversationItems itemId = some item) (hc : item.content = some cs) :
    slotTextD s itemId idx = (cs.getD idx emptyPart).text.getD "" := by
  unfold slotTextD
  rw [hf]
  simp [hc]

theorem slotTransD_of_find (s : RCState) (itemId : String) (idx : Nat)
    (item : Item) (cs : List ContentPart)
    (hf : assocFind s.conversationItems itemId = some item) (hc : item.content = some cs) :
    slotTransD s itemId idx = (cs.getD idx emptyPart).transcript.getD "" := by
  unfold slotTransD
  rw [hf]
  simp [hc]

theorem runTextDeltas_slot (itemId : String) (idx : Nat) (ds : List String) :
    ∀ s : RCState, slotReady s itemId idx →
      slotTextD (runTextDeltas itemId idx s ds) itemId idx
        = slotTextD s itemId idx ++ strConcat ds
      ∧ slotReady (runTextDeltas itemId idx s ds) itemId idx := by
  induction ds with
  | nil =>
    intro s h
    exact ⟨by simp [runTextDeltas, strConcat], h⟩
  | cons d rest ih =>
    rintro s ⟨item, cs, hf, hc, hlt⟩
    rw [runTextDeltas]
    have hstep := textDelta_state s itemId idx d item cs hf hc hlt
    rw [hstep]
    have hf1 : assocFind (assocSet s.conversationItems itemId
        { item with content := some (modifyAt cs idx
            (fun p => { p with text := some (p.text.getD "" ++ d) })) }) itemId
        = some { item with content := some (modifyAt cs idx
            (fun p => { p with text := some (p.text.getD "" ++ d) })) } :=
      assocFind_assocSet_self _ _ _
    have hready1 : slotReady { s with conversationItems := (assocSet s.conversationItems itemId
        { item with content := some (modifyAt cs idx
            (fun p => { p with text := some (p.text.getD "" ++ d) })) }) } itemId idx :=
      ⟨_, _, hf1, rfl, by rw [modifyAt_length]; exact hlt⟩
    obtain ⟨ihslot, ihready⟩ := ih _ hready1
    refine ⟨?_, ihready⟩
    rw [ihslot]
    have hs1 : slotTextD { s with conversationItems := (assocSet s.conversationItems itemId
        { item with content := some (modifyAt cs idx
            (fun p => { p with text := some (p.text.getD "" ++ d) })) }) } itemId idx
        = slotTextD s itemId idx ++ d := by
      rw [slotTextD_of_find _ itemId idx _ _ hf1 rfl,
        slotTextD_of_find s itemId idx item cs hf hc,
        modifyAt_getD_self cs idx _ emptyPart hlt]
      rfl
    rw [hs1, strConcat, String.append_assoc]

theorem runTranscriptDeltas_slot (itemId : String) (idx : Nat) (ds : List String) :
    ∀ s : RCState, slotReady s itemId idx →
      slotTransD (runTranscriptDeltas itemId idx s ds) itemId idx
        = slotTransD s itemId idx ++ strConcat ds
      ∧ slotReady (runTranscriptDeltas itemId idx s ds) itemId idx := by
  induction ds with
  | nil =>
    intro s h
    exact ⟨by simp [runTranscriptDeltas, strConcat], h⟩
  | cons d rest ih =>
    rintro s ⟨item, cs, hf, hc, hlt⟩
    rw [runTranscriptDeltas]
    have hstep := transDelta_state s itemId idx d item cs hf hc hlt
    rw [hstep]
    have hf1 : assocFind (assocSet s.conversationItems itemId
        { item with content := some (modifyAt cs idx
            (fun p => { p with transcript := some (p.transcript.getD "" ++ d) })) }) itemId
        = some { item with content := some (modifyAt cs idx
            (fun p => { p with transcript := some (p.transcript.getD "" ++ d) })) } :=
      assocFind_assocSet_self _ _ _
    have hready1 : slotReady { s with conversationItems := (assocSet s.conversationItems itemId
        { item with content := some (modifyAt cs idx
            (fun p => { p with transcript := some (p.transcript.getD "" ++ d) })) }) } itemId idx :=
      ⟨_, _, hf1, rfl, by rw [modifyAt_length]; exact hlt⟩
    obtain ⟨ihslot, ihready⟩ := ih _ hready1
    refine ⟨?_, ihready⟩
    rw [ihslot]
    have hs1 : slotTransD { s with conversationItems := (assocSet s.conversationItems itemId
        { item with content := some (modifyAt cs idx
            (fun p => { p with transcript := some (p.transcript.getD "" ++ d) })) }) } itemId idx
        = slotTransD s itemId idx ++ d := by
      rw [slotTransD_of_find _ itemId idx _ _ hf1 rfl,
        slotTransD_of_find s itemId idx item cs hf hc,
        modifyAt_getD_self cs idx _ emptyPart hlt]
      rfl
    rw [hs1, strConcat, String.append_assoc]

theorem textDone_slot (s : RCState) (itemId : String) (idx : Nat) (v : String)
    (h : slotReady s itemId idx) :
    slotTextD (handleResponseTextDone s (mkTextDoneEvent itemId idx v)).1 itemId idx = v := by
  obtain ⟨item, cs, hf, hc, hlt⟩ := h
  have hitems : (handleResponseTextDone s (mkTextDoneEvent itemId idx v)).1.conversationItems
      = (assocSet s.conversationItems itemId
          { item with content := some (modifyAt cs idx (fun p => { p with text := some v })) }) := by
    unfold handleResponseTextDone mkTextDoneEvent
    simp [hf, hc, hlt, historyUpsert_conversationItems]
  have hf2 : assocFind (handleResponseTextDone s (mkTextDoneEvent itemId idx v)).1.conversationItems itemId
      = some { item with content := some (modifyAt cs idx (fun p => { p with text := some v })) } := by
    rw [hitems]
    exact assocFind_assocSet_self _ _ _
  rw [slotTextD_of_find _ itemId idx _ _ hf2 rfl,
    modifyAt_getD_self cs idx _ emptyPart hlt]
  rfl

theorem transDone_slot (s : RCState) (itemId : String) (idx : Nat) (v : String)
    (h : slotReady s itemId idx) :
    slotTransD (handleResponseAudioTranscriptDone s (mkTranscriptDoneEvent itemId idx v)).1 itemId idx = v := by
  obtain ⟨item, cs, hf, hc, hlt⟩ := h
  have hitems : (handleResponseAudioTranscriptDone s (mkTranscriptDoneEvent itemId idx v)).1.conversationItems
      = (assocSet s.conversationItems itemId
          { item with content := some (modifyAt cs idx (fun p => { p with transcript := some v })) }) := by
    unfold handleResponseAudioTranscriptDone mkTranscriptDoneEvent
    simp [hf, hc, hlt, historyUpsert_conversationItems]
  have hf2 : assocFind (handleResponseAudioTranscriptDone s (mkTranscriptDoneEvent itemId idx v)).1.conversationItems itemId
      = some { item with content := some (modifyAt cs idx (fun p => { p with transcript := some v })) } := by
    rw [hitems]
    exact assocFind_assocSet_self _ _ _
  rw [slotTransD_of_find _ itemId idx _ _ hf2 rfl,
    modifyAt_getD_self cs idx _ emptyPart hlt]
  rfl

end SlotLemmas

section Claims

/-- Claim C9: the inactivity watchdog is never armed while isPlaying or
isResponding or isUserSpeaking holds at the guard check (startInactivityTimer
returns with the state untouched), it is armed with the fixed 5000 ms delay
when all three are down, and firing closes the connection and terminates
the process. -/
theorem C9_watchdog_guard (s : RCState) :
    ((s.isPlayingAudio || s.isAssistantResponding || s.isUserSpeaking) = true → startInactivityTimer s = s)
    ∧ ((s.isPlayingAudio || s.isAssistantResponding || s.isUserSpeaking) = false →
        (startInactivityTimer s).inactivityTimer = some 5000)
    ∧ handleInactivityTimeout = [SessionAction.closeConnection, SessionAction.exitProcess] := by
  refine ⟨fun h => ?_, fun h => ?_, rfl⟩
  · unfold startInactivityTimer
    simp only [h, if_true]
  · unfold startInactivityTimer
    simp only [h, Bool.false_eq_true, if_false]

/-- Witness for C9 at concrete states on both sides of the guard. -/
theorem C9_watchdog_guard_witness :
    startInactivityTimer busyState = busyState
    ∧ (startInactivityTimer initialState).inactivityTimer = some 5000 :=
  ⟨(C9_watchdog_guard busyState).1 rfl, (C9_watchdog_guard initialState).2.1 rfl⟩

/-- Claim C10, counterexample: a conversation.item.created event with a
garbled payload (no item) makes the handler throw while reading item.id,
and the dispatcher propagates the error instead of reporting it and
continuing: handleEvent returns the error, so the router loop is not
protected. -/
theorem C10_handler_error_escapes :
    handleEvent defaultOracles initialState { type := "conversation.item.created" } = .error .typeError := rfl

/-- Claim C10 (amended): an event whose type tag matches no handler is
ignored without any state change and without output; a throwing handler,
however, propagates its error out of the dispatch uncaught. -/
theorem C10_unknown_event_ignored (orc : Oracles) (s : RCState) (e : Event)
    (h : e.type ∉ handlerKeys) :
    handleEvent orc s e = .ok (s, []) := by
  simp only [handlerKeys, List.mem_cons, List.not_mem_nil, or_false, not_or] at h
  obtain ⟨h1, h2, h3, h4, h5, h6, h7, h8, h9, h10, h11, h12, h13, h14, h15, h16, h17, h18⟩ := h
  simp only [handleEvent, h1, h2, h3, h4, h5, h6, h7, h8, h9, h10, h11, h12, h13, h14, h15, h16,
    h17, h18, if_false]

/-- Witness for C10 at a concrete unrecognized event. -/
theorem C10_unknown_event_ignored_witness :
    handleEvent defaultOracles initialState { type := "session.updated" } = .ok (initialState, []) :=
  C10_unknown_event_ignored defaultOracles initialState { type := "session.updated" } (by decide)

/-- Claim C7, divergence: a function call for update_tools_list arriving
before any transcribed user utterance exists is NOT deferred.  The handler
pushes the function_call history entry before checking the last-5 slice,
so the slice is never empty: with a fully empty prior history the pending
map stays empty and the refresh resolves immediately (one output and one
response request are already emitted). -/
theorem C7_refresh_never_deferred :
    initialState.conversationHistory = []
    ∧ (handleFunctionCall initialState scenCItem (.ok [])).1.pendingFunctionCalls = []
    ∧ countCallOutputs (handleFunctionCall initialState scenCItem (.ok [])).2 = 1
    ∧ countResponseCreates (handleFunctionCall initialState scenCItem (.ok [])).2 = 1 := by
  refine ⟨rfl, rfl, rfl, rfl⟩

/-- Claim C2, divergence: when the external tool-execute or tool-search call
fails, the catch block only logs: no function-call-output wire event and no
response-create request is emitted and the state is left as it was (the
pending entry is not even cleaned up), while the success and registry-miss
paths each emit exactly one of each. -/
theorem C2_silent_failure_paths :
    (handleDynamicFunctionCall dynCallState (some "f") (some "call_9") .fail = (dynCallState, []))
    ∧ (handleUpdateToolsList dynCallState (some "call_9") (getLastNMessages dynCallState 5) .fail
        = (dynCallState, []))
    ∧ countCallOutputs (handleDynamicFunctionCall dynCallState (some "f") (some "call_9") (.ok "res")).2 = 1
    ∧ countResponseCreates (handleDynamicFunctionCall dynCallState (some "f") (some "call_9") (.ok "res")).2 = 1
    ∧ countCallOutputs (handleDynamicFunctionCall dynCallState (some "g") (some "call_9") (.ok "res")).2 = 1
    ∧ countResponseCreates (handleDynamicFunctionCall dynCallState (some "g") (some "call_9") (.ok "res")).2 = 1 := by
  refine ⟨rfl, rfl, rfl, rfl, rfl, rfl⟩

/-- Claim C5, counterexample: a text delta addressing content index 0 of an
item whose content array is still empty is dropped without inserting any
placeholder slot: the state is unchanged and the content array stays
empty, so the payload is not applied at index 0. -/
theorem C5_delta_does_not_grow_slots :
    (handleResponseTextDelta emptyContentState (mkTextDeltaEvent "i1" 0 "x")).1 = emptyContentState
    ∧ itemContent (handleResponseTextDelta emptyContentState (mkTextDeltaEvent "i1" 0 "x")).1 "i1" = some [] := by
  refine ⟨rfl, rfl⟩

/-- Claim C6: after a successful tool-registry refresh the dynamic-tool map
is a function of the search results alone (wholesale replacement: two runs
from arbitrary different prior states, histories and registries end with
the same map), and the tool list pushed via the session-tools-update wire
event contains the reserved update_tools_list capability. -/
theorem C6_registry_replaced_wholesale (s₁ s₂ : RCState) (callId₁ callId₂ : Option String)
    (msgs₁ msgs₂ : List HistoryMsg) (results : List ToolSearchApiResponse) :
    (handleUpdateToolsList s₁ callId₁ msgs₁ (.ok results)).1.dynamicTools
      = (handleUpdateToolsList s₂ callId₂ msgs₂ (.ok results)).1.dynamicTools
    ∧ ∃ eid tools, OutEvent.sessionUpdate eid tools ∈ (handleUpdateToolsList s₁ callId₁ msgs₁ (.ok results)).2
        ∧ updateToolListFunction ∈ tools := by
  have key : ∀ (s : RCState) (callId : Option String) (msgs : List HistoryMsg),
      (handleUpdateToolsList s callId msgs (.ok results)).1.dynamicTools = (toolsLoop results ([], [])).1
      ∧ OutEvent.sessionUpdate (eventIdStr s.eventCounter)
          ((toolsLoop results ([], [])).2 ++ [updateToolListFunction])
          ∈ (handleUpdateToolsList s callId msgs (.ok results)).2 := by
    intro s callId msgs
    unfold handleUpdateToolsList updateFunctions generateEventId sendResponseCreateEvent logNewMessage
    simp only
    constructor
    · split <;> rfl
    · split <;> simp
  refine ⟨((key s₁ callId₁ msgs₁).1).trans ((key s₂ callId₂ msgs₂).1).symm,
    eventIdStr s₁.eventCounter, (toolsLoop results ([], [])).2 ++ [updateToolListFunction],
    (key s₁ callId₁ msgs₁).2, ?_⟩
  simp [updateToolListFunction]

/-- Claim C3: when user speech starts while playback is active and a current
assistant item is known, the emitted conversation.item.truncate event
carries audio_end_ms equal to Math.round of the played duration
(assistantAudioPlaybackDurationMs), not of the received duration. -/
theorem C3_truncate_uses_played_duration (s : RCState) (e : Event) (itemId : String) (k : Nat)
    (hp : s.isPlayingAudio = true) (hl : s.lastAssistantItemId = some itemId)
    (hne : itemId ≠ "") (hk : s.assistantAudioContentIndex = some k) :
    (handleInputAudioBufferSpeechStarted s e).2 =
      [OutEvent.itemTruncate (eventIdStr s.eventCounter) itemId k (round s.assistantAudioPlaybackDurationMs)] := by
  unfold handleInputAudioBufferSpeechStarted truncateAssistantSpeech generateEventId
  simp [hp, hl, hk, truthyS, hne, jsStr]

/-- Witness for C3, Scenario B: assistant item a1 created, 50 bytes of audio
delta received (about 1.04 ms), 30 bytes drained by the sink (0.625 ms),
then user speech starts: the truncate event carries audio_end_ms = 1,
rounded from the played duration (rounding the received duration would
also give 1, but the offset term is the played one). -/
theorem C3_truncate_uses_played_duration_witness :
    (handleInputAudioBufferSpeechStarted scenB2 dummyEvent).2 =
      [OutEvent.itemTruncate "event_0" "a1" 0 1] := by
  have h := C3_truncate_uses_played_duration scenB2 dummyEvent "a1" 0 rfl rfl (by decide) rfl
  rw [h]
  have hval : scenB2.assistantAudioPlaybackDurationMs = (((30 : ℕ) : ℚ) / 2 / 24000) * 1000 := by
    show (0 : ℚ) + (((30 : ℕ) : ℚ) / 2 / 24000) * 1000 = _
    rw [zero_add]
  rw [hval]
  norm_num [round_eq]
  rfl

/-- Claim C1: for a sequence of delta events targeting the same
(item_id, content_index) on an existing content slot whose accumulation is
empty, the accumulating field (text for text deltas, transcript for
audio-transcript deltas) equals the deltas concatenated in arrival order,
and a subsequent done event sets the field to the done value, overwriting
the accumulated string rather than appending to it. -/
theorem C1_delta_concat_done_overwrites (s : RCState) (itemId : String) (idx : Nat)
    (ds dt : List String) (v w : String)
    (hready : slotReady s itemId idx)
    (h0 : slotTextD s itemId idx = "") (h0t : slotTransD s itemId idx = "") :
    slotTextD (runTextDeltas itemId idx s ds) itemId idx = strConcat ds
    ∧ slotTextD (handleResponseTextDone (runTextDeltas itemId idx s ds)
        (mkTextDoneEvent itemId idx v)).1 itemId idx = v
    ∧ slotTransD (runTranscriptDeltas itemId idx s dt) itemId idx = strConcat dt
    ∧ slotTransD (handleResponseAudioTranscriptDone (runTranscriptDeltas itemId idx s dt)
        (mkTranscriptDoneEvent itemId idx w)).1 itemId idx = w := by
  obtain ⟨hslot, hready2⟩ := runTextDeltas_slot itemId idx ds s hready
  obtain ⟨hslotT, hready2T⟩ := runTranscriptDeltas_slot itemId idx dt s hready
  refine ⟨?_, textDone_slot _ itemId idx v hready2, ?_, transDone_slot _ itemId idx w hready2T⟩
  · rw [hslot, h0]
    simp
  · rw [hslotT, h0t]
    simp

/-- Witness for C1, Scenario A shaped: a fresh text slot receives deltas He
and llo, accumulating to Hello; the done event then overwrites with its
full value. -/
theorem C1_delta_concat_done_overwrites_witness :
    slotTextD (runTextDeltas "i1" 0 freshSlotState ["He", "llo"]) "i1" 0 = "Hello"
    ∧ slotTextD (handleResponseTextDone (runTextDeltas "i1" 0 freshSlotState ["He", "llo"])
        (mkTextDoneEvent "i1" 0 "Hello there")).1 "i1" 0 = "Hello there"
    ∧ slotTransD (runTranscriptDeltas "i1" 0 freshSlotState ["He", "llo"]) "i1" 0 = "Hello"
    ∧ slotTransD (handleResponseAudioTranscriptDone (runTranscriptDeltas "i1" 0 freshSlotState ["He", "llo"])
        (mkTranscriptDoneEvent "i1" 0 "Hello!")).1 "i1" 0 = "Hello!" := by
  have h := C1_delta_concat_done_overwrites freshSlotState "i1" 0 ["He", "llo"] ["He", "llo"]
    "Hello there" "Hello!"
    ⟨_, _, rfl, rfl, by decide⟩ rfl rfl
  exact ⟨h.1.trans rfl, h.2.1, h.2.2.1.trans rfl, h.2.2.2⟩

/-- Claim C5 (amended): only content-part-added events grow the slot
sequence — missing slots up to the addressed index are inserted as empty
placeholders, the index ends up in range, and the delivered part lands at
it; text and audio-transcript delta events addressing an index at or
beyond the current length are dropped without any state change (so
indexing never goes out of range), and their payload is applied at the
addressed index only when the slot already exists. -/
theorem C5_lazy_growth_amended (s : RCState) (itemId : String) (idx : Nat)
    (part : ContentPart) (d : String) (item : Item)
    (hf : assocFind s.conversationItems itemId = some item) :
    (∃ cs₂, itemContent (handleResponseContentPartAdded s (mkPartAddedEvent itemId idx part)).1 itemId = some cs₂
      ∧ cs₂.length = max (item.content.getD []).length (idx + 1)
      ∧ cs₂.getD idx emptyPart = part
      ∧ ∀ j, (item.content.getD []).length ≤ j → j < idx → cs₂.getD j emptyPart = emptyPart)
    ∧ (∀ cs, item.content = some cs → cs.length ≤ idx →
        handleResponseTextDelta s (mkTextDeltaEvent itemId idx d) = (s, [])
        ∧ handleResponseAudioTranscriptDelta s (mkTranscriptDeltaEvent itemId idx d) = (s, []))
    ∧ (∀ cs, item.content = some cs → idx < cs.length →
        slotTextD (handleResponseTextDelta s (mkTextDeltaEvent itemId idx d)).1 itemId idx
          = slotTextD s itemId idx ++ d) := by
  refine ⟨?_, ?_, ?_⟩
  · refine ⟨(growContent (item.content.getD []) idx).set idx part, ?_, ?_, ?_, ?_⟩
    · unfold handleResponseContentPartAdded mkPartAddedEvent itemContent
      simp only [hf]
      rw [assocFind_assocSet_self]
      rfl
    · rw [List.length_set, growContent_length]
    · refine getD_set_self _ idx part emptyPart ?_
      rw [growContent_length]
      omega
    · intro j hj1 hj2
      rw [getD_set_ne _ idx j part emptyPart (Nat.ne_of_lt hj2)]
      exact growContent_getD_tail _ idx j hj1
  · intro cs hc hge
    have hnlt : ¬ idx < cs.length := by omega
    constructor
    · unfold handleResponseTextDelta mkTextDeltaEvent
      simp [hf, hc, hnlt]
    · unfold handleResponseAudioTranscriptDelta mkTranscriptDeltaEvent
      simp [hf, hc, hnlt]
  · intro cs hc hlt
    rw [textDelta_state s itemId idx d item cs hf hc hlt]
    rw [slotTextD_of_find _ itemId idx _ _ (assocFind_assocSet_self _ _ _) rfl,
      slotTextD_of_find s itemId idx item cs hf hc,
      modifyAt_getD_self cs idx _ emptyPart hlt]
    rfl

/-- Witness for C5 (amended): on an item with an empty content array, a part
added at index 2 yields two placeholders below it, and a text delta at
index 0 is dropped with the state unchanged. -/
theorem C5_lazy_growth_amended_witness :
    itemContent (handleResponseContentPartAdded emptyContentState
        (mkPartAddedEvent "i1" 2 { ptype := some "audio" })).1 "i1"
      = some [emptyPart, emptyPart, { ptype := some "audio" }]
    ∧ handleResponseTextDelta emptyContentState (mkTextDeltaEvent "i1" 0 "x")
      = (emptyContentState, []) := by
  have h := C5_lazy_growth_amended emptyContentState "i1" 2 { ptype := some "audio" } "x"
    { id := "i1", itemType := some "message", role := some "assistant", content := some [] } rfl
  exact ⟨rfl, (h.2.1 [] rfl (by decide)).1⟩

end Claims

section Scheduler

theorem schedRun_cons (s : RCState) (a : SchedAct) (rest : List SchedAct) :
    schedRun s (a :: rest) =
      ((schedRun (schedStep s a).1 rest).1, (schedStep s a).2 ++ (schedRun (schedStep s a).1 rest).2) := by
  rcases hs : schedStep s a with ⟨s1, outs1⟩
  rcases hr : schedRun s1 rest with ⟨s2, outs2⟩
  simp [schedRun, hs, hr]

/-- The scheduler invariant: everything sent so far followed by the still
pending queue is exactly the request sequence in arrival order, a state
with no response in flight has an empty queue, and the number of sends in
any run is bounded by the response-done signals plus the one slot available
at the start. -/
theorem sched_invariant (acts : List SchedAct) :
    ∀ s : RCState, (s.responseInProgress = false → s.responseQueue = []) →
      ((schedRun s acts).2 ++ (schedRun s acts).1.responseQueue = s.responseQueue ++ reqsOf acts)
      ∧ ((schedRun s acts).1.responseInProgress = false → (schedRun s acts).1.responseQueue = [])
      ∧ ((schedRun s acts).2.length ≤ donesCount acts + (if s.responseInProgress then 0 else 1)) := by
  induction acts with
  | nil =>
    intro s h
    refine ⟨by simp [schedRun, reqsOf], h, ?_⟩
    simp only [schedRun, List.length_nil]
    split <;> omega
  | cons a rest ih =>
    intro s h
    rw [schedRun_cons]
    cases a with
    | req ev =>
      by_cases hp : s.responseInProgress = true
      · have hstep : schedStep s (SchedAct.req ev) = ({ s with responseQueue := s.responseQueue ++ [ev] }, []) := by
          simp [schedStep, sendResponseCreateEvent, hp]
        obtain ⟨ih1, ih2, ih3⟩ := ih { s with responseQueue := s.responseQueue ++ [ev] }
          (fun hco => absurd hco (by simp [hp]))
        rw [hstep]
        refine ⟨?_, ih2, ?_⟩
        · simp only [List.nil_append]
          rw [ih1]
          simp [reqsOf]
        · simp only [List.nil_append]
          refine le_trans ih3 ?_
          simp [donesCount, hp]
      · have hpf : s.responseInProgress = false := by simpa using hp
        have hqe : s.responseQueue = [] := h hpf
        have hstep : schedStep s (SchedAct.req ev) = ({ s with responseInProgress := true }, [ev]) := by
          simp [schedStep, sendResponseCreateEvent, hpf]
        obtain ⟨ih1, ih2, ih3⟩ := ih { s with responseInProgress := true }
          (fun hco => by simp at hco)
        rw [hstep]
        refine ⟨?_, ih2, ?_⟩
        · rw [List.append_assoc, ih1]
          simp [hqe, reqsOf]
        · have h3 : (schedRun { s with responseInProgress := true } rest).2.length ≤ donesCount rest := by
            simpa using ih3
          simp only [List.length_append, List.length_cons, List.length_nil, donesCount, hpf, if_false,
            Bool.false_eq_true]
          omega
    | done =>
      rcases hq : s.responseQueue with _ | ⟨next, rest2⟩
      · have hstep : schedStep s SchedAct.done =
            ({ s with isAssistantResponding := false, responseInProgress := false }, []) := by
          simp [schedStep, handleResponseDone, hq]
        obtain ⟨ih1, ih2, ih3⟩ := ih { s with isAssistantResponding := false, responseInProgress := false }
          (fun _ => by simpa using hq)
        rw [hstep]
        refine ⟨?_, ih2, ?_⟩
        · rw [List.nil_append, ih1]
          simp [hq, reqsOf]
        · have h3 : (schedRun { s with isAssistantResponding := false, responseInProgress := false } rest).2.length
              ≤ donesCount rest + 1 := by simpa using ih3
          simp only [List.nil_append, donesCount]
          split <;> omega
      · have hp : s.responseInProgress = true := by
          by_contra hc
          have hq2 := h (by simpa using hc)
          rw [hq] at hq2
          cases hq2
        have hstep : schedStep s SchedAct.done =
            ({ s with isAssistantResponding := false, responseInProgress := true, responseQueue := rest2 },
              [next]) := by
          simp [schedStep, handleResponseDone, hq, sendResponseCreateEvent]
        obtain ⟨ih1, ih2, ih3⟩ := ih
          { s with isAssistantResponding := false, responseInProgress := true, responseQueue := rest2 }
          (fun hco => by simp at hco)
        rw [hstep]
        refine ⟨?_, ih2, ?_⟩
        · rw [List.append_assoc, ih1]
          simp [hq, reqsOf]
        · have h3 : (schedRun { s with isAssistantResponding := false, responseInProgress := true, responseQueue := rest2 } rest).2.length ≤ donesCount rest := by simpa using ih3
          simp only [List.length_append, List.length_cons, List.length_nil, donesCount, hp, if_true]
          omega

end Scheduler

section ClaimsB

/-- Claim C4: for every interleaving of response-create requests and
response-done signals from the freshly constructed state, the sent
requests followed by the still-queued ones are exactly the requested
events in arrival order (so a request arriving while one is in flight is
enqueued, and response-done dequeues and sends in strict FIFO order), and
on every prefix of the interleaving the number of requests put on the wire
never exceeds the response-done signals plus one: at most one
response-create request is outstanding at any instant. -/
theorem C4_response_scheduler_fifo (acts : List SchedAct) (n : Nat) :
    (schedRun initialState acts).2 ++ (schedRun initialState acts).1.responseQueue = reqsOf acts
    ∧ (schedRun initialState (acts.take n)).2.length ≤ donesCount (acts.take n) + 1 := by
  obtain ⟨h1, _, _⟩ := sched_invariant acts initialState (fun _ => rfl)
  obtain ⟨_, _, h3⟩ := sched_invariant (acts.take n) initialState (fun _ => rfl)
  exact ⟨by simpa using h1, by simpa using h3⟩

end ClaimsB

section AudioPipeline

/-- The per-turn accounting invariant of the playback pipeline: both
duration counters are the exact millisecond images of their byte counters
under the (bytes / 2 / 24000) * 1000 conversion, the sink has not drained
more than was written, and the stream handles exist exactly while playback
is marked.  It holds at a turn start, where every counter is zero. -/
def audioInv (s : RCState) : Prop :=
  s.assistantAudioPlaybackDurationMs = (s.playedBytes : ℚ) / 48
  ∧ s.assistantAudioDurationMs = (s.writtenBytes : ℚ) / 48
  ∧ s.playedBytes ≤ s.writtenBytes
  ∧ s.audioStreamOpen = s.isPlayingAudio
  ∧ s.speakerOpen = s.isPlayingAudio

theorem bytes_to_ms (b : ℕ) : ((b : ℚ) / 2 / 24000) * 1000 = (b : ℚ) / 48 := by
  field_simp
  ring

theorem cast_add_div48 (a b : ℕ) : (((a + b : ℕ) : ℚ)) / 48 = (a : ℚ) / 48 + (b : ℚ) / 48 := by
  push_cast
  ring

theorem audioDeltaBody_fields (s : RCState) (bytes : ℕ)
    (h4 : s.audioStreamOpen = s.isPlayingAudio) (h5 : s.speakerOpen = s.isPlayingAudio) :
    (audioDeltaBody s bytes).assistantAudioDurationMs
        = s.assistantAudioDurationMs + ((bytes : ℚ) / 2 / 24000) * 1000
    ∧ (audioDeltaBody s bytes).writtenBytes = s.writtenBytes + bytes
    ∧ (audioDeltaBody s bytes).assistantAudioPlaybackDurationMs = s.assistantAudioPlaybackDurationMs
    ∧ (audioDeltaBody s bytes).playedBytes = s.playedBytes
    ∧ (audioDeltaBody s bytes).audioStreamOpen = true
    ∧ (audioDeltaBody s bytes).speakerOpen = true
    ∧ (audioDeltaBody s bytes).isPlayingAudio = true := by
  by_cases hp : s.isPlayingAudio = true
  · have hso : s.audioStreamOpen = true := by rw [h4, hp]
    have hsp : s.speakerOpen = true := by rw [h5, hp]
    unfold audioDeltaBody
    simp [hp, hso, hsp]
  · have hpf : s.isPlayingAudio = false := by simpa using hp
    unfold audioDeltaBody
    simp [hpf]

theorem audioStep_inv (s : RCState) (ev : AudioEv) (hInv : audioInv s)
    (hv : match ev with
      | .drain bytes => s.playedBytes + bytes ≤ s.writtenBytes
      | .delta _ _ => True) :
    audioInv (audioStep s ev) := by
  obtain ⟨h1, h2, h3, h4, h5⟩ := hInv
  cases ev with
  | delta itemId bytes =>
    by_cases ht : truncatedHas s (some itemId) = true
    · have hstep : audioStep s (AudioEv.delta itemId bytes) = s := by
        simp [audioStep, handleResponseAudioDelta, mkAudioDeltaEvent, ht, Except.toOption]
      rw [hstep]
      exact ⟨h1, h2, h3, h4, h5⟩
    · have hstep : audioStep s (AudioEv.delta itemId bytes) = audioDeltaBody s bytes := by
        simp only [audioStep, handleResponseAudioDelta, mkAudioDeltaEvent]
        simp [ht, Except.toOption]
      rw [hstep]
      obtain ⟨g1, g2, g3, g4, g5, g6, g7⟩ := audioDeltaBody_fields s bytes h4 h5
      refine ⟨?_, ?_, ?_, ?_, ?_⟩
      · rw [g3, h1, g4]
      · rw [g1, g2, h2, bytes_to_ms, cast_add_div48]
      · rw [g4, g2]; omega
      · rw [g5, g7]
      · rw [g6, g7]
  | drain bytes =>
    have hstep : audioStep s (AudioEv.drain bytes) =
        { s with
          assistantAudioPlaybackDurationMs := s.assistantAudioPlaybackDurationMs + ((bytes : ℚ) / 2 / 24000) * 1000,
          playedBytes := s.playedBytes + bytes } := by
      simp [audioStep, onAudioStreamData]
    rw [hstep]
    refine ⟨?_, h2, ?_, by simpa using h4, by simpa using h5⟩
    · show s.assistantAudioPlaybackDurationMs + ((bytes : ℚ) / 2 / 24000) * 1000
          = ((s.playedBytes + bytes : ℕ) : ℚ) / 48
      rw [h1, bytes_to_ms, cast_add_div48]
    · show s.playedBytes + bytes ≤ s.writtenBytes
      exact hv

theorem audioRun_inv (tr : List AudioEv) :
    ∀ s : RCState, audioInv s → audioValid s tr = true → audioInv (audioRun s tr) := by
  induction tr with
  | nil => intro s h _; exact h
  | cons ev rest ih =>
    intro s h hv
    rw [audioValid.eq_def] at hv
    simp only [Bool.and_eq_true] at hv
    obtain ⟨hv1, hv2⟩ := hv
    rw [audioRun]
    refine ih (audioStep s ev) (audioStep_inv s ev h ?_) hv2
    cases ev with
    | delta itemId bytes => trivial
    | drain bytes => simpa using of_decide_eq_true hv1

section ClaimsC

/-- Claim C8: during an assistant audio turn (any sequence of inbound audio
deltas and sink drain reports in which the sink only drains bytes that
were written, run from any state satisfying the turn accounting
invariant), the played duration never exceeds the received duration, both
converted from bytes via (bytes / 2 / 24000) * 1000 ms. -/
theorem C8_played_le_received (s : RCState) (tr : List AudioEv)
    (hInv : audioInv s) (hv : audioValid s tr = true) :
    (audioRun s tr).assistantAudioPlaybackDurationMs ≤ (audioRun s tr).assistantAudioDurationMs := by
  obtain ⟨h1, h2, h3, _, _⟩ := audioRun_inv tr s hInv hv
  rw [h1, h2]
  have hb : ((audioRun s tr).playedBytes : ℚ) ≤ ((audioRun s tr).writtenBytes : ℚ) := by
    exact_mod_cast h3
  exact (div_le_div_iff_of_pos_right (by norm_num)).mpr hb

/-- Witness for C8: from the turn start of Scenario B, receive 50 bytes and
drain 30 of them; the played duration stays below the received one. -/
theorem C8_played_le_received_witness :
    (audioRun scenB0 [AudioEv.delta "a1" 50, AudioEv.drain 30]).assistantAudioPlaybackDurationMs
      ≤ (audioRun scenB0 [AudioEv.delta "a1" 50, AudioEv.drain 30]).assistantAudioDurationMs := by
  refine C8_played_le_received scenB0 [AudioEv.delta "a1" 50, AudioEv.drain 30] ?_ (by decide)
  refine ⟨?_, ?_, by decide, rfl, rfl⟩
  · show (0 : ℚ) = ((0 : ℕ) : ℚ) / 48
    norm_num
  · show (0 : ℚ) = ((0 : ℕ) : ℚ) / 48
    norm_num

end ClaimsC

end AudioPipeline

end VoiceAssistant
